import Mathlib

/-!
# Verification of the prompt relocation engine (`src/index.js`)

This file gives a shallow embedding of the pure computational core of the
prompt-mover extension: the relocation engine of `performOperation`
(src/index.js lines 243-337) together with its ordered-view helpers
`getPromptOrder` (lines 60-64), `findPromptDef` (lines 72-74) and
`getOrderedPrompts` (lines 82-94), plus the `canMove` enabling condition of
`updateButtons` (lines 233-241).

Modelling conventions:
* JSON objects are Lean structures; `prompts` and `prompt_order` fields that
  the JS defaults with `|| []` are modelled as always-present lists.
* A prompt record keeps the two fields the engine reads and writes
  (`identifier` and `name`); all other fields are opaque to the algorithm.
* `character_id` values are numbers compared through `String(x) === String(y)`
  in the JS; on numeric ids this is plain equality, modelled as `Nat` equality.
* The JS selection state (`selectedSourcePromptIndex`, `insertPosition`) uses
  `-1` as a sentinel, so both are modelled as `Int`.
* The network persistence (`savePreset`) is host I/O and outside the engine;
  the embedding returns the two updated presets that the JS hands to it.
* The JS error returns (`toastr.error` + early `return`) become an `Except`:
  `selectionMissing` for the negative-index guard (line 244) and `notFound`
  for a selection index that addresses no entry of the ordered source list
  (line 258).  The preset-name lookup in `openai_setting_names` (lines
  249-255) is host glue: the embedding receives the two presets as values.
-/

/-- `GLOBAL_DUMMY_ID` from src/index.js line 6: the scope id of the global
prompt order. -/
def GLOBAL_DUMMY_ID : Nat := 100001

/-- A prompt definition as the engine sees it: the two fields it inspects. -/
structure Prompt where
  identifier : String
  name : String
deriving Repr, DecidableEq

/-- One `{identifier, enabled}` reference of a `prompt_order` sequence. -/
structure OrderRef where
  identifier : String
  enabled : Bool
deriving Repr, DecidableEq

/-- One scope of `prompt_order`: a `character_id` and its ordered references. -/
structure OrderEntry where
  character_id : Nat
  order : List OrderRef
deriving Repr, DecidableEq

/-- A preset: a flat prompt list and the per-scope ordered reference lists. -/
structure Preset where
  prompts : List Prompt
  prompt_order : List OrderEntry
deriving Repr, DecidableEq

/-- An entry of the ordered view built by `getOrderedPrompts`. -/
structure OrderedPrompt where
  identifier : String
  enabled : Bool
  prompt : Prompt
deriving Repr, DecidableEq

/-- `getPromptOrder` (src/index.js lines 60-64): the order list of the global
dummy scope, or `[]` when the preset has no such scope. -/
def getPromptOrder (preset : Preset) : List OrderRef :=
  match preset.prompt_order.find? (fun o => o.character_id == GLOBAL_DUMMY_ID) with
  | some entry => entry.order
  | none => []

/-- `findPromptDef` (src/index.js lines 72-74): first prompt definition with
the given identifier, if any. -/
def findPromptDef (preset : Preset) (identifier : String) : Option Prompt :=
  preset.prompts.find? (fun p => p.identifier == identifier)

/-- `getOrderedPrompts` (src/index.js lines 82-94): resolve each order
reference of the global scope to its definition, or to the stub
`{identifier, name: identifier}` when no definition matches. -/
def getOrderedPrompts (preset : Preset) : List OrderedPrompt :=
  (getPromptOrder preset).map (fun entry =>
    { identifier := entry.identifier,
      enabled := entry.enabled,
      prompt :=
        match preset.prompts.find? (fun p => p.identifier == entry.identifier) with
        | some d => d
        | none => { identifier := entry.identifier, name := entry.identifier } })

/-- The `canMove` condition of `updateButtons` (src/index.js lines 233-241):
both presets chosen, a prompt and a slot selected, and distinct names. -/
def canMove (sourceName targetName : String) (selectedIdx insertPos : Int) : Bool :=
  sourceName != "" && targetName != "" &&
    selectedIdx >= 0 && insertPos >= 0 && sourceName != targetName

/-- The candidate identifier `` `${baseName}_${counter}` `` probed by the
disambiguation loop (src/index.js line 276). -/
def numberedId (base : String) (counter : Nat) : String :=
  base ++ "_" ++ Nat.repr counter

/-- The regex replacement `identifier.replace(/_\d+$/, '')` of src/index.js
line 275: drop a trailing `_<digits>` group (underscore followed by one or
more decimal digits at the end of the string), if present. -/
def dropNumSuffix (s : String) : String :=
  let rev := s.data.reverse
  match rev.takeWhile (fun c => c.isDigit), rev.dropWhile (fun c => c.isDigit) with
  | _ :: _, '_' :: rest => ⟨rest.reverse⟩
  | _, _ => s

/-- The probing loop `while (existingIds.includes(base_counter)) counter++`
of src/index.js line 276, run with enough fuel to reach a free identifier. -/
def probeCounter (ids : List String) (base : String) : Nat → Nat → Nat
  | 0, counter => counter
  | fuel + 1, counter =>
    if numberedId base counter ∈ ids then probeCounter ids base fuel (counter + 1)
    else counter

/-- Identifier disambiguation (src/index.js lines 271-280): when the copied
identifier already occurs among `existingIds`, strip a trailing `_<digits>`
suffix, probe `base_1, base_2, …` for the first unused identifier, and append
`" (<counter>)"` to the display name (falling back to the selected entry's
identifier when the name is empty, as `promptDef.name || selectedEntry.identifier`
does); otherwise keep the prompt unchanged. -/
def disambiguate (existingIds : List String) (selIdentifier : String) (pd : Prompt) : Prompt :=
  if pd.identifier ∈ existingIds then
    let base := dropNumSuffix pd.identifier
    let counter := probeCounter existingIds base (existingIds.length + 1) 1
    { identifier := numberedId base counter,
      name := (if pd.name = "" then selIdentifier else pd.name)
              ++ " (" ++ Nat.repr counter ++ ")" }
  else pd

/-- JS `array.splice(i, 0, a)` for `i ≥ 0`: insert `a` at index `i`, clamping
an index beyond the end to an append (src/index.js line 288). -/
def spliceInsert {α : Type} (l : List α) (i : Nat) (a : α) : List α :=
  l.take i ++ a :: l.drop i

/-- Mutation of the single object `find` returned: rewrite the first element
satisfying `p` with `f`, leaving everything else in place. -/
def modifyFirst {α : Type} (p : α → Bool) (f : α → α) : List α → List α
  | [] => []
  | a :: l => if p a then f a :: l else a :: modifyFirst p f l

/-- The order update of src/index.js lines 285-302: splice the new reference
into the global scope's order at `insertPos` (creating the scope, holding only
the new reference, when absent), then append the same reference to the order
of every non-global scope. -/
def insertIntoOrders (po : List OrderEntry) (insertPos : Nat) (newId : String) : List OrderEntry :=
  let newRef : OrderRef := { identifier := newId, enabled := true }
  let po1 :=
    if (po.find? (fun o => o.character_id == GLOBAL_DUMMY_ID)).isSome then
      modifyFirst (fun o => o.character_id == GLOBAL_DUMMY_ID)
        (fun o => { o with order := spliceInsert o.order insertPos newRef }) po
    else
      po ++ [{ character_id := GLOBAL_DUMMY_ID, order := [newRef] }]
  po1.map (fun o =>
    if o.character_id == GLOBAL_DUMMY_ID then o
    else { o with order := o.order ++ [newRef] })

/-- The source removal of src/index.js lines 313-316: `findIndex` of the first
prompt with the removed identifier, then `splice(idx, 1)`; no change when the
identifier does not occur. -/
def removeFirstPrompt (l : List Prompt) (removedId : String) : List Prompt :=
  match l.findIdx? (fun q => q.identifier == removedId) with
  | some j => l.take j ++ l.drop (j + 1)
  | none => l

/-- The move-mode source update of src/index.js lines 308-325: drop the first
prompt with the removed identifier and filter every reference to it out of
every `prompt_order` scope. -/
def removeFromPreset (preset : Preset) (removedId : String) : Preset :=
  { prompts := removeFirstPrompt preset.prompts removedId,
    prompt_order := preset.prompt_order.map (fun o =>
      { o with order := o.order.filter (fun r => r.identifier != removedId) }) }

/-- The engine's error returns: `selectionMissing` for the guard of
src/index.js line 244, `notFound` for the missing-entry check of line 258. -/
inductive MoverError where
  | selectionMissing
  | notFound
deriving Repr, DecidableEq

/-- The relocation engine: the pure computational core of `performOperation`
(src/index.js lines 243-337).  `removeFromSource` is `true` for move mode and
`false` for copy mode.  Returns `(updatedSource, updatedTarget)`: the two
presets that the JS persists and then adopts as the new canonical state. -/
def performOperation (sourceName targetName : String) (source target : Preset)
    (selectedIdx insertPos : Int) (removeFromSource : Bool) :
    Except MoverError (Preset × Preset) :=
  if selectedIdx < 0 ∨ insertPos < 0 then
    Except.error MoverError.selectionMissing
  else
    match (getOrderedPrompts source)[selectedIdx.toNat]? with
    | none => Except.error MoverError.notFound
    | some selectedEntry =>
      let renamed := disambiguate (target.prompts.map (fun p => p.identifier))
        selectedEntry.identifier selectedEntry.prompt
      let updatedTarget : Preset :=
        { prompts := target.prompts ++ [renamed],
          prompt_order := insertIntoOrders target.prompt_order insertPos.toNat
            renamed.identifier }
      let updatedSource :=
        if removeFromSource ∧ sourceName ≠ targetName then
          removeFromPreset source selectedEntry.identifier
        else source
      Except.ok (updatedSource, updatedTarget)

deriving instance DecidableEq for Except

/-! ### Decimal rendering

The probing loop compares candidate identifiers `base_1, base_2, …` as
strings, so the freshness argument needs that the decimal rendering
`Nat.repr` is injective on the positive counters the loop uses. -/

theorem digitChar_fin_inj : ∀ a b : Fin 10, Nat.digitChar a = Nat.digitChar b → a = b := by
  decide

theorem digitChar_inj_lt {a b : Nat} (ha : a < 10) (hb : b < 10)
    (h : Nat.digitChar a = Nat.digitChar b) : a = b := by
  have := digitChar_fin_inj ⟨a, ha⟩ ⟨b, hb⟩ h
  exact congrArg Fin.val this

theorem map_digitChar_inj : ∀ (l1 l2 : List Nat), (∀ x ∈ l1, x < 10) → (∀ x ∈ l2, x < 10) →
    l1.map Nat.digitChar = l2.map Nat.digitChar → l1 = l2 := by
  intro l1
  induction l1 with
  | nil => intro l2 _ _ h; cases l2 <;> simp_all
  | cons a l ih =>
    intro l2 h1 h2 h
    cases l2 with
    | nil => simp at h
    | cons b m =>
      simp only [List.map_cons, List.cons.injEq] at h
      have hab : a = b := digitChar_inj_lt (h1 a (by simp)) (h2 b (by simp)) h.1
      subst hab
      rw [ih m (fun x hx => h1 x (by simp [hx])) (fun x hx => h2 x (by simp [hx])) h.2]

theorem toDigitsCore_eq_digits : ∀ (f n : Nat) (ds : List Char), 0 < n → n ≤ f →
    Nat.toDigitsCore 10 f n ds = ((Nat.digits 10 n).map Nat.digitChar).reverse ++ ds := by
  intro f
  induction f with
  | zero => intro n ds hn hf; omega
  | succ f ih =>
    intro n ds hn hf
    rw [Nat.toDigitsCore]
    by_cases h10 : n / 10 = 0
    · simp only [h10, if_pos]
      rw [Nat.digits_def' (by norm_num : (1 : Nat) < 10) hn, h10, Nat.digits_zero]
      simp
    · simp only [h10, if_neg, if_false]
      rw [ih (n / 10) _ (Nat.pos_of_ne_zero h10)
        (by have := Nat.div_lt_self hn (by norm_num : 1 < 10); omega)]
      rw [Nat.digits_def' (by norm_num : (1 : Nat) < 10) hn]
      simp [List.append_assoc]

theorem repr_eq_digits {n : Nat} (hn : 0 < n) :
    Nat.repr n = ⟨((Nat.digits 10 n).map Nat.digitChar).reverse⟩ := by
  show (Nat.toDigits 10 n).asString = _
  unfold Nat.toDigits List.asString
  rw [toDigitsCore_eq_digits (n + 1) n [] hn (by omega)]
  simp

theorem repr_inj_pos {m n : Nat} (hm : 0 < m) (hn : 0 < n)
    (h : Nat.repr m = Nat.repr n) : m = n := by
  rw [repr_eq_digits hm, repr_eq_digits hn] at h
  injection h with h
  have h2 := List.reverse_injective h
  have h3 := map_digitChar_inj _ _
    (fun x hx => Nat.digits_lt_base (by norm_num) hx)
    (fun x hx => Nat.digits_lt_base (by norm_num) hx) h2
  have h4 := congrArg (Nat.ofDigits 10) h3
  rwa [Nat.ofDigits_digits, Nat.ofDigits_digits] at h4

theorem numberedId_inj {base : String} {c1 c2 : Nat} (h1 : 0 < c1) (h2 : 0 < c2)
    (h : numberedId base c1 = numberedId base c2) : c1 = c2 := by
  unfold numberedId at h
  have hd := congrArg String.data h
  simp only [String.data_append] at hd
  have hr := List.append_cancel_left hd
  exact repr_inj_pos h1 h2 (String.ext hr)

/-! ### The probing loop -/

theorem probeCounter_free (ids : List String) (base : String) :
    ∀ (fuel start : Nat),
      (∃ k, k < fuel ∧ numberedId base (start + k) ∉ ids) →
      numberedId base (probeCounter ids base fuel start) ∉ ids := by
  intro fuel
  induction fuel with
  | zero =>
    intro start h
    obtain ⟨k, hk, _⟩ := h
    omega
  | succ fuel ih =>
    intro start h
    obtain ⟨k, hk, hfree⟩ := h
    rw [probeCounter]
    by_cases hmem : numberedId base start ∈ ids
    · rw [if_pos hmem]
      apply ih
      cases k with
      | zero => exact absurd hmem (by simpa using hfree)
      | succ k' =>
        refine ⟨k', by omega, ?_⟩
        have harith : start + 1 + k' = start + (k' + 1) := by omega
        rw [harith]
        exact hfree
    · rw [if_neg hmem]
      exact hmem

theorem probeCounter_least (ids : List String) (base : String) :
    ∀ (fuel start : Nat), start ≤ probeCounter ids base fuel start ∧
      ∀ m, start ≤ m → m < probeCounter ids base fuel start → numberedId base m ∈ ids := by
  intro fuel
  induction fuel with
  | zero =>
    intro start
    rw [probeCounter]
    exact ⟨Nat.le_refl _, fun m h1 h2 => by omega⟩
  | succ fuel ih =>
    intro start
    rw [probeCounter]
    by_cases hmem : numberedId base start ∈ ids
    · rw [if_pos hmem]
      obtain ⟨hle, hall⟩ := ih (start + 1)
      refine ⟨by omega, fun m h1 h2 => ?_⟩
      rcases Nat.eq_or_lt_of_le h1 with heq | hlt
      · rwa [← heq]
      · exact hall m (by omega) h2
    · rw [if_neg hmem]
      exact ⟨Nat.le_refl _, fun m h1 h2 => by omega⟩

theorem exists_free_counter (ids : List String) (base : String) :
    ∃ k, k < ids.length + 1 ∧ numberedId base (1 + k) ∉ ids := by
  by_contra hc
  push_neg at hc
  have hnodup : ((List.range (ids.length + 1)).map (fun k => numberedId base (1 + k))).Nodup := by
    refine List.Nodup.map_on ?_ (List.nodup_range _)
    intro x _ y _ hxy
    have := numberedId_inj (by omega : 0 < 1 + x) (by omega : 0 < 1 + y) hxy
    omega
  have hsub : ∀ x ∈ (List.range (ids.length + 1)).map (fun k => numberedId base (1 + k)),
      x ∈ ids := by
    intro x hx
    obtain ⟨k, hk, rfl⟩ := List.mem_map.mp hx
    exact hc k (List.mem_range.mp hk)
  have hcard : ((List.range (ids.length + 1)).map
      (fun k => numberedId base (1 + k))).toFinset.card ≤ ids.toFinset.card := by
    apply Finset.card_le_card
    intro x hx
    rw [List.mem_toFinset] at hx ⊢
    exact hsub x hx
  rw [List.toFinset_card_of_nodup hnodup] at hcard
  have h2 : ids.toFinset.card ≤ ids.length := List.toFinset_card_le ids
  simp only [List.length_map, List.length_range] at hcard
  omega

theorem probeCounter_fresh (ids : List String) (base : String) :
    numberedId base (probeCounter ids base (ids.length + 1) 1) ∉ ids := by
  apply probeCounter_free
  obtain ⟨k, hk, hfree⟩ := exists_free_counter ids base
  exact ⟨k, hk, hfree⟩

/-! ### Disambiguation -/

theorem disambiguate_not_mem (existingIds : List String) (sid : String) (pd : Prompt) :
    (disambiguate existingIds sid pd).identifier ∉ existingIds := by
  unfold disambiguate
  by_cases hmem : pd.identifier ∈ existingIds
  · rw [if_pos hmem]
    exact probeCounter_fresh existingIds (dropNumSuffix pd.identifier)
  · rw [if_neg hmem]
    exact hmem

theorem disambiguate_of_not_mem {existingIds : List String} {sid : String} {pd : Prompt}
    (hmem : pd.identifier ∉ existingIds) : disambiguate existingIds sid pd = pd := by
  unfold disambiguate
  rw [if_neg hmem]

theorem disambiguate_of_mem (existingIds : List String) (sid : String) (pd : Prompt)
    (hmem : pd.identifier ∈ existingIds) :
    ∃ n, 1 ≤ n ∧
      disambiguate existingIds sid pd =
        { identifier := numberedId (dropNumSuffix pd.identifier) n,
          name := (if pd.name = "" then sid else pd.name) ++ " (" ++ Nat.repr n ++ ")" } ∧
      numberedId (dropNumSuffix pd.identifier) n ∉ existingIds ∧
      ∀ m, 1 ≤ m → m < n → numberedId (dropNumSuffix pd.identifier) m ∈ existingIds := by
  refine ⟨probeCounter existingIds (dropNumSuffix pd.identifier) (existingIds.length + 1) 1,
    (probeCounter_least existingIds (dropNumSuffix pd.identifier) (existingIds.length + 1) 1).1,
    ?_, probeCounter_fresh existingIds (dropNumSuffix pd.identifier),
    fun m h1 h2 =>
      (probeCounter_least existingIds (dropNumSuffix pd.identifier)
        (existingIds.length + 1) 1).2 m h1 h2⟩
  unfold disambiguate
  rw [if_pos hmem]

/-! ### Order-list updates -/

theorem find?_map_of_pres {α : Type} (p : α → Bool) (f : α → α)
    (hf : ∀ x, p (f x) = p x) : ∀ l : List α, (l.map f).find? p = (l.find? p).map f := by
  intro l
  induction l with
  | nil => rfl
  | cons a l ih =>
    by_cases h : p a
    · rw [List.map_cons, List.find?_cons_of_pos _ (by rw [hf a]; exact h),
        List.find?_cons_of_pos _ h, Option.map_some']
    · rw [List.map_cons, List.find?_cons_of_neg _ (by rw [hf a]; exact h),
        List.find?_cons_of_neg _ h, ih]

theorem find?_modifyFirst {α : Type} (p : α → Bool) (f : α → α)
    (hpf : ∀ x, p x = true → p (f x) = true) :
    ∀ l : List α, (modifyFirst p f l).find? p = (l.find? p).map f := by
  intro l
  induction l with
  | nil => rfl
  | cons a l ih =>
    rw [modifyFirst]
    by_cases h : p a
    · rw [if_pos h, List.find?_cons_of_pos _ (hpf a h), List.find?_cons_of_pos _ h,
        Option.map_some']
    · rw [if_neg h, List.find?_cons_of_neg _ h, List.find?_cons_of_neg _ h, ih]

theorem modifyFirst_getElem_not_pred {α : Type} (p : α → Bool) (f : α → α) :
    ∀ (l : List α) (j : Nat) (x : α), l[j]? = some x → p x = false →
      (modifyFirst p f l)[j]? = some x := by
  intro l
  induction l with
  | nil => intro j x h _; simp at h
  | cons a l ih =>
    intro j x h hx
    rw [modifyFirst]
    by_cases hpa : p a
    · rw [if_pos hpa]
      cases j with
      | zero =>
        simp only [List.getElem?_cons_zero, Option.some.injEq] at h
        rw [← h] at hx
        rw [hpa] at hx
        exact absurd hx (by simp)
      | succ j => simpa using h
    · rw [if_neg hpa]
      cases j with
      | zero => simpa using h
      | succ j =>
        simp only [List.getElem?_cons_succ] at h ⊢
        exact ih j x h hx

theorem insertIntoOrders_pres_global : ∀ x : OrderEntry,
    ((if x.character_id == GLOBAL_DUMMY_ID then x
      else { x with order := x.order ++ [⟨nid, true⟩] }).character_id == GLOBAL_DUMMY_ID) =
    (x.character_id == GLOBAL_DUMMY_ID) := by
  intro x
  by_cases hx : x.character_id == GLOBAL_DUMMY_ID
  · rw [if_pos hx]
  · rw [if_neg hx]

theorem insertIntoOrders_find_global_of_present (po : List OrderEntry) (pos : Nat)
    (nid : String) (e : OrderEntry)
    (h : po.find? (fun o => o.character_id == GLOBAL_DUMMY_ID) = some e) :
    (insertIntoOrders po pos nid).find? (fun o => o.character_id == GLOBAL_DUMMY_ID) =
      some { e with order := spliceInsert e.order pos { identifier := nid, enabled := true } } := by
  have hglobal : (e.character_id == GLOBAL_DUMMY_ID) = true := by
    have hp := List.find?_some h
    exact hp
  simp only [insertIntoOrders]
  rw [if_pos (by rw [h]; rfl)]
  rw [find?_map_of_pres _ _ (fun x => insertIntoOrders_pres_global x)]
  rw [find?_modifyFirst (fun o => o.character_id == GLOBAL_DUMMY_ID)
    (fun o => { o with
      order := spliceInsert o.order pos { identifier := nid, enabled := true } })
    (fun x hx => hx) po, h, Option.map_some', Option.map_some']
  rw [if_pos hglobal]

theorem insertIntoOrders_find_global_of_absent (po : List OrderEntry) (pos : Nat)
    (nid : String)
    (h : po.find? (fun o => o.character_id == GLOBAL_DUMMY_ID) = none) :
    (insertIntoOrders po pos nid).find? (fun o => o.character_id == GLOBAL_DUMMY_ID) =
      some { character_id := GLOBAL_DUMMY_ID, order := [{ identifier := nid, enabled := true }] } := by
  simp only [insertIntoOrders]
  rw [if_neg (by rw [h]; simp)]
  rw [List.map_append, List.find?_append]
  rw [find?_map_of_pres _ _ (fun x => insertIntoOrders_pres_global x), h]
  simp

theorem insertIntoOrders_getElem_nonglobal (po : List OrderEntry) (pos : Nat)
    (nid : String) (j : Nat) (o : OrderEntry)
    (hj : po[j]? = some o) (ho : (o.character_id == GLOBAL_DUMMY_ID) = false) :
    (insertIntoOrders po pos nid)[j]? =
      some { o with order := o.order ++ [{ identifier := nid, enabled := true }] } := by
  simp only [insertIntoOrders]
  by_cases hg : (po.find? (fun o => o.character_id == GLOBAL_DUMMY_ID)).isSome
  · rw [if_pos hg]
    rw [List.getElem?_map, modifyFirst_getElem_not_pred _ _ po j o hj ho]
    rw [Option.map_some']
    rw [if_neg (by rw [ho]; simp)]
  · rw [if_neg hg]
    have hlen : j < po.length := by
      rcases List.getElem?_eq_some.mp hj with ⟨hl, _⟩
      exact hl
    rw [List.getElem?_map, List.getElem?_append_left hlen, hj, Option.map_some']
    rw [if_neg (by rw [ho]; simp)]

/-! ### Source removal -/

theorem removeFirstPrompt_cons (a : Prompt) (l : List Prompt) (pid : String) :
    removeFirstPrompt (a :: l) pid =
      if a.identifier == pid then l else a :: removeFirstPrompt l pid := by
  unfold removeFirstPrompt
  rw [List.findIdx?_cons]
  by_cases h : a.identifier == pid
  · rw [if_pos h, if_pos h]
    simp
  · rw [if_neg h, if_neg h, List.findIdx?_succ]
    cases hf : l.findIdx? (fun q => q.identifier == pid) with
    | none => simp
    | some j => simp

theorem removeFirstPrompt_not_mem : ∀ (l : List Prompt) (pid : String),
    (l.map (fun q => q.identifier)).Nodup →
    ∀ q ∈ removeFirstPrompt l pid, q.identifier ≠ pid := by
  intro l
  induction l with
  | nil => intro pid _ q hq; simp [removeFirstPrompt] at hq
  | cons a l ih =>
    intro pid hnd q hq
    simp only [List.map_cons, List.nodup_cons] at hnd
    rw [removeFirstPrompt_cons] at hq
    by_cases h : a.identifier == pid
    · rw [if_pos h] at hq
      intro hqid
      apply hnd.1
      have hmem : q.identifier ∈ l.map (fun q => q.identifier) :=
        List.mem_map_of_mem _ hq
      rw [hqid] at hmem
      rwa [eq_of_beq h]
    · rw [if_neg h] at hq
      rcases List.mem_cons.mp hq with rfl | hq'
      · intro hqid
        exact h (by rw [hqid]; simp)
      · exact ih pid hnd.2 q hq'

/-! ### Inversion of a successful engine run -/

theorem performOperation_ok_elim {sourceName targetName : String} {source target : Preset}
    {selectedIdx insertPos : Int} {removeFromSource : Bool} {us ut : Preset}
    (h : performOperation sourceName targetName source target selectedIdx insertPos
      removeFromSource = Except.ok (us, ut)) :
    0 ≤ selectedIdx ∧ 0 ≤ insertPos ∧
    ∃ sel, (getOrderedPrompts source)[selectedIdx.toNat]? = some sel ∧
      ut = { prompts := target.prompts ++
               [disambiguate (target.prompts.map (fun p => p.identifier))
                  sel.identifier sel.prompt],
             prompt_order := insertIntoOrders target.prompt_order insertPos.toNat
               (disambiguate (target.prompts.map (fun p => p.identifier))
                  sel.identifier sel.prompt).identifier } ∧
      us = if removeFromSource ∧ sourceName ≠ targetName
           then removeFromPreset source sel.identifier else source := by
  unfold performOperation at h
  split at h
  · exact absurd h (by simp)
  case isFalse hcond =>
    split at h
    · exact absurd h (by simp)
    case _ sel hsel =>
      simp only [Except.ok.injEq, Prod.mk.injEq] at h
      push_neg at hcond
      exact ⟨by omega, by omega, sel, hsel, h.2.symm, h.1.symm⟩

theorem getPromptOrder_insertIntoOrders (ps : List Prompt) (target : Preset) (pos : Nat)
    (nid : String) :
    getPromptOrder { prompts := ps, prompt_order := insertIntoOrders target.prompt_order pos nid } =
      spliceInsert (getPromptOrder target) pos { identifier := nid, enabled := true } := by
  unfold getPromptOrder
  cases hf : target.prompt_order.find? (fun o => o.character_id == GLOBAL_DUMMY_ID) with
  | some e =>
    rw [insertIntoOrders_find_global_of_present _ pos nid e hf]
  | none =>
    rw [insertIntoOrders_find_global_of_absent _ pos nid hf]
    simp [spliceInsert]

theorem insertIntoOrders_of_absent (po : List OrderEntry) (pos : Nat) (nid : String)
    (h : po.find? (fun o => o.character_id == GLOBAL_DUMMY_ID) = none) :
    insertIntoOrders po pos nid =
      po.map (fun o => { o with order := o.order ++ [{ identifier := nid, enabled := true }] }) ++
        [{ character_id := GLOBAL_DUMMY_ID, order := [{ identifier := nid, enabled := true }] }] := by
  simp only [insertIntoOrders]
  rw [if_neg (by rw [h]; simp)]
  rw [List.map_append]
  congr 1
  apply List.map_congr_left
  intro o ho
  rw [if_neg (List.find?_eq_none.mp h o ho)]

/-! ### Concrete presets used by the witnesses and counterexamples -/

def exSource : Preset := ⟨[⟨"X", "Foo"⟩], [⟨GLOBAL_DUMMY_ID, [⟨"X", true⟩]⟩]⟩

def exSelX : OrderedPrompt := ⟨"X", true, ⟨"X", "Foo"⟩⟩

def exTargetX : Preset := ⟨[⟨"X", "Bar"⟩], [⟨GLOBAL_DUMMY_ID, [⟨"X", true⟩]⟩]⟩

def exTargetXX1 : Preset :=
  ⟨[⟨"X", "Bar"⟩, ⟨"X_1", "Baz"⟩], [⟨GLOBAL_DUMMY_ID, [⟨"X", true⟩, ⟨"X_1", true⟩]⟩]⟩

def exTargetFresh : Preset := ⟨[⟨"Y", "Bar"⟩], [⟨GLOBAL_DUMMY_ID, [⟨"Y", true⟩]⟩]⟩

def exSourceTwoScopes : Preset :=
  ⟨[⟨"X", "Foo"⟩], [⟨GLOBAL_DUMMY_ID, [⟨"X", true⟩]⟩, ⟨7, [⟨"X", true⟩]⟩]⟩

def exSourceGhost : Preset := ⟨[], [⟨GLOBAL_DUMMY_ID, [⟨"ghost", true⟩]⟩]⟩

def exTargetEmpty : Preset := ⟨[], []⟩

/-- Result of copying `X` into `exTargetX` at slot 0. -/
def exTargetXCopied : Preset :=
  ⟨[⟨"X", "Bar"⟩, ⟨"X_1", "Foo (1)"⟩],
   [⟨GLOBAL_DUMMY_ID, [⟨"X_1", true⟩, ⟨"X", true⟩]⟩]⟩

/-- Result of copying `X` into `exTargetX` at slot 1 (or any clamped slot ≥ 1). -/
def exTargetXAppended : Preset :=
  ⟨[⟨"X", "Bar"⟩, ⟨"X_1", "Foo (1)"⟩],
   [⟨GLOBAL_DUMMY_ID, [⟨"X", true⟩, ⟨"X_1", true⟩]⟩]⟩

/-- Result of copying `X` into `exTargetXX1` at slot 0. -/
def exTargetXX1Copied : Preset :=
  ⟨[⟨"X", "Bar"⟩, ⟨"X_1", "Baz"⟩, ⟨"X_2", "Foo (2)"⟩],
   [⟨GLOBAL_DUMMY_ID, [⟨"X_2", true⟩, ⟨"X", true⟩, ⟨"X_1", true⟩]⟩]⟩

/-- Result of a same-name "move" of `X` from `exSource` onto itself. -/
def exSourceSelfMoved : Preset :=
  ⟨[⟨"X", "Foo"⟩, ⟨"X_1", "Foo (1)"⟩],
   [⟨GLOBAL_DUMMY_ID, [⟨"X_1", true⟩, ⟨"X", true⟩]⟩]⟩

/-- The source side after moving `X` out of `exSourceTwoScopes`. -/
def exSourcePurged : Preset := ⟨[], [⟨GLOBAL_DUMMY_ID, []⟩, ⟨7, []⟩]⟩

/-- The target side after moving `X` from `exSourceTwoScopes` into `exTargetEmpty`. -/
def exMovedTarget : Preset := ⟨[⟨"X", "Foo"⟩], [⟨GLOBAL_DUMMY_ID, [⟨"X", true⟩]⟩]⟩

/-- The target side after copying the dangling reference `ghost`. -/
def exGhostCopied : Preset :=
  ⟨[⟨"ghost", "ghost"⟩], [⟨GLOBAL_DUMMY_ID, [⟨"ghost", true⟩]⟩]⟩

/-- The target side after copying `X` into `exTargetFresh` (no collision). -/
def exTargetFreshCopied : Preset :=
  ⟨[⟨"Y", "Bar"⟩, ⟨"X", "Foo"⟩],
   [⟨GLOBAL_DUMMY_ID, [⟨"X", true⟩, ⟨"Y", true⟩]⟩]⟩

/-! ### The claims -/

/-- C1: for every pair of collections whose items each have pairwise-distinct
identifiers, after `performOperation` in either copy or move mode the updated
target's items contain no two prompts sharing an identifier: the
disambiguation step always assigns an identifier that is fresh for the
target. -/
theorem relocate_target_identifiers_nodup
    (sourceName targetName : String) (source target : Preset)
    (selectedIdx insertPos : Int) (removeFromSource : Bool) (us ut : Preset)
    (hsrc : (source.prompts.map (fun q => q.identifier)).Nodup)
    (htgt : (target.prompts.map (fun q => q.identifier)).Nodup)
    (h : performOperation sourceName targetName source target selectedIdx insertPos
      removeFromSource = Except.ok (us, ut)) :
    (ut.prompts.map (fun q => q.identifier)).Nodup := by
  obtain ⟨-, -, sel, hsel, hut, -⟩ := performOperation_ok_elim h
  subst hut
  simp only [List.map_append, List.map_cons, List.map_nil]
  rw [List.nodup_append]
  refine ⟨htgt, List.nodup_singleton _, ?_⟩
  intro x hx hmem
  simp only [List.mem_singleton] at hmem
  subst hmem
  exact disambiguate_not_mem _ _ _ hx

/-- C1 witness: copying `X` into a target that already holds `X` leaves the
target's identifiers (`X`, `X_1`) pairwise distinct. -/
theorem relocate_target_identifiers_nodup_witness :
    ((exSource.prompts.map (fun q => q.identifier)).Nodup ∧
     (exTargetX.prompts.map (fun q => q.identifier)).Nodup ∧
     performOperation "A" "B" exSource exTargetX 0 0 false =
       Except.ok (exSource, exTargetXCopied)) ∧
    (exTargetXCopied.prompts.map (fun q => q.identifier)).Nodup :=
  ⟨⟨by decide, by decide, by decide⟩,
   relocate_target_identifiers_nodup "A" "B" exSource exTargetX 0 0 false
     exSource exTargetXCopied (by decide) (by decide) (by decide)⟩

/-- C2: on an identifier collision the engine strips a trailing `_<integer>`
suffix to get a base, probes `base_1, base_2, …` for the least unused counter
`n`, assigns `base_n` to the copy and appends `" (<n>)"` to its display name;
concretely, copying `X` into a target containing `X` and `X_1` yields
identifier `X_2`, and copying `X` into a target containing only `X` yields
`X_1`. -/
theorem relocate_collision_disambiguation
    (sourceName targetName : String) (source target : Preset)
    (selectedIdx insertPos : Int) (removeFromSource : Bool) (us ut : Preset)
    (sel : OrderedPrompt)
    (hsel : (getOrderedPrompts source)[selectedIdx.toNat]? = some sel)
    (hcol : sel.prompt.identifier ∈ target.prompts.map (fun q => q.identifier))
    (h : performOperation sourceName targetName source target selectedIdx insertPos
      removeFromSource = Except.ok (us, ut)) :
    (∃ n, 1 ≤ n ∧
      ut.prompts = target.prompts ++
        [{ identifier := numberedId (dropNumSuffix sel.prompt.identifier) n,
           name := (if sel.prompt.name = "" then sel.identifier else sel.prompt.name)
                   ++ " (" ++ Nat.repr n ++ ")" }] ∧
      numberedId (dropNumSuffix sel.prompt.identifier) n ∉
        target.prompts.map (fun q => q.identifier) ∧
      ∀ m, 1 ≤ m → m < n →
        numberedId (dropNumSuffix sel.prompt.identifier) m ∈
          target.prompts.map (fun q => q.identifier)) ∧
    (performOperation "A" "B" exSource exTargetXX1 0 0 false =
       Except.ok (exSource, exTargetXX1Copied) ∧
     exTargetXX1Copied.prompts.map (fun q => q.identifier) = ["X", "X_1", "X_2"]) ∧
    (performOperation "A" "B" exSource exTargetX 0 0 false =
       Except.ok (exSource, exTargetXCopied) ∧
     exTargetXCopied.prompts.map (fun q => q.identifier) = ["X", "X_1"]) := by
  refine ⟨?_, ⟨by decide, by decide⟩, ⟨by decide, by decide⟩⟩
  obtain ⟨-, -, sel', hsel', hut, -⟩ := performOperation_ok_elim h
  rw [hsel'] at hsel
  injection hsel with hss
  subst hss
  obtain ⟨n, hn1, hdis, hfree, hleast⟩ :=
    disambiguate_of_mem (target.prompts.map (fun q => q.identifier))
      sel'.identifier sel'.prompt hcol
  refine ⟨n, hn1, ?_, hfree, hleast⟩
  rw [hut, hdis]

/-- C2 witness: the general collision characterisation instantiated on the
`X`/`X_1` target, discharging the hypotheses by computation. -/
theorem relocate_collision_disambiguation_witness :
    ((getOrderedPrompts exSource)[(0 : Int).toNat]? = some exSelX ∧
     exSelX.prompt.identifier ∈ exTargetXX1.prompts.map (fun q => q.identifier) ∧
     performOperation "A" "B" exSource exTargetXX1 0 0 false =
       Except.ok (exSource, exTargetXX1Copied)) ∧
    (∃ n, 1 ≤ n ∧
      exTargetXX1Copied.prompts = exTargetXX1.prompts ++
        [{ identifier := numberedId (dropNumSuffix exSelX.prompt.identifier) n,
           name := (if exSelX.prompt.name = "" then exSelX.identifier else exSelX.prompt.name)
                   ++ " (" ++ Nat.repr n ++ ")" }] ∧
      numberedId (dropNumSuffix exSelX.prompt.identifier) n ∉
        exTargetXX1.prompts.map (fun q => q.identifier) ∧
      ∀ m, 1 ≤ m → m < n →
        numberedId (dropNumSuffix exSelX.prompt.identifier) m ∈
          exTargetXX1.prompts.map (fun q => q.identifier)) :=
  ⟨⟨by decide, by decide, by decide⟩,
   (relocate_collision_disambiguation "A" "B" exSource exTargetXX1 0 0 false
     exSource exTargetXX1Copied exSelX (by decide) (by decide) (by decide)).1⟩

/-- C3: every successful relocation inserts the new order reference
`{identifier := copy.identifier, enabled := true}` at `insertPos` into the
global (edited) order sequence, creates a fresh global scope entry containing
only this reference (appended after the existing scopes) when that scope is
absent, and appends the same reference at the end of every other scope's
order, at its original position in `prompt_order`. -/
theorem relocate_order_reference_insertion
    (sourceName targetName : String) (source target : Preset)
    (selectedIdx insertPos : Int) (removeFromSource : Bool) (us ut : Preset)
    (h : performOperation sourceName targetName source target selectedIdx insertPos
      removeFromSource = Except.ok (us, ut))
    (hlen : insertPos.toNat ≤ (getPromptOrder target).length) :
    ∃ pd, ut.prompts = target.prompts ++ [pd] ∧
      getPromptOrder ut =
        (getPromptOrder target).take insertPos.toNat ++
          { identifier := pd.identifier, enabled := true } ::
            (getPromptOrder target).drop insertPos.toNat ∧
      (target.prompt_order.find? (fun o => o.character_id == GLOBAL_DUMMY_ID) = none →
        ut.prompt_order =
          target.prompt_order.map (fun o =>
              { o with order := o.order ++
                  [{ identifier := pd.identifier, enabled := true }] }) ++
            [{ character_id := GLOBAL_DUMMY_ID,
               order := [{ identifier := pd.identifier, enabled := true }] }]) ∧
      ∀ (j : Nat) (o : OrderEntry), target.prompt_order[j]? = some o →
        (o.character_id == GLOBAL_DUMMY_ID) = false →
        ut.prompt_order[j]? =
          some { o with order := o.order ++
            [{ identifier := pd.identifier, enabled := true }] } := by
  obtain ⟨-, -, sel, -, hut, -⟩ := performOperation_ok_elim h
  subst hut
  refine ⟨disambiguate (target.prompts.map (fun p => p.identifier))
    sel.identifier sel.prompt, rfl, ?_, ?_, ?_⟩
  · rw [getPromptOrder_insertIntoOrders]
    rfl
  · intro habs
    exact insertIntoOrders_of_absent target.prompt_order insertPos.toNat _ habs
  · intro j o hj ho
    exact insertIntoOrders_getElem_nonglobal target.prompt_order insertPos.toNat _ j o hj ho

/-- C3 witness: copying `X` into `exTargetX` at slot 1 (the closed range's
upper end) places the new reference after the existing one. -/
theorem relocate_order_reference_insertion_witness :
    (performOperation "A" "B" exSource exTargetX 0 1 false =
       Except.ok (exSource, exTargetXAppended) ∧
     (1 : Int).toNat ≤ (getPromptOrder exTargetX).length) ∧
    ∃ pd, exTargetXAppended.prompts = exTargetX.prompts ++ [pd] ∧
      getPromptOrder exTargetXAppended =
        (getPromptOrder exTargetX).take (1 : Int).toNat ++
          { identifier := pd.identifier, enabled := true } ::
            (getPromptOrder exTargetX).drop (1 : Int).toNat ∧
      (exTargetX.prompt_order.find? (fun o => o.character_id == GLOBAL_DUMMY_ID) = none →
        exTargetXAppended.prompt_order =
          exTargetX.prompt_order.map (fun o =>
              { o with order := o.order ++
                  [{ identifier := pd.identifier, enabled := true }] }) ++
            [{ character_id := GLOBAL_DUMMY_ID,
               order := [{ identifier := pd.identifier, enabled := true }] }]) ∧
      ∀ (j : Nat) (o : OrderEntry), exTargetX.prompt_order[j]? = some o →
        (o.character_id == GLOBAL_DUMMY_ID) = false →
        exTargetXAppended.prompt_order[j]? =
          some { o with order := o.order ++
            [{ identifier := pd.identifier, enabled := true }] } :=
  ⟨⟨by decide, by decide⟩,
   relocate_order_reference_insertion "A" "B" exSource exTargetX 0 1 false
     exSource exTargetXAppended (by decide) (by decide)⟩

/-- C4: a move between two collections of different names removes the moved
identifier everywhere from the updated source: no prompt of `us.prompts`
carries it and no scope of `us.prompt_order` holds a reference to it. -/
theorem relocate_move_purges_source
    (sourceName targetName : String) (source target : Preset)
    (selectedIdx insertPos : Int) (us ut : Preset) (sel : OrderedPrompt)
    (hnd : (source.prompts.map (fun q => q.identifier)).Nodup)
    (hne : sourceName ≠ targetName)
    (hsel : (getOrderedPrompts source)[selectedIdx.toNat]? = some sel)
    (h : performOperation sourceName targetName source target selectedIdx insertPos
      true = Except.ok (us, ut)) :
    (∀ q ∈ us.prompts, q.identifier ≠ sel.identifier) ∧
    (∀ e ∈ us.prompt_order, ∀ r ∈ e.order, r.identifier ≠ sel.identifier) := by
  obtain ⟨-, -, sel', hsel', -, hus⟩ := performOperation_ok_elim h
  rw [hsel'] at hsel
  injection hsel with hss
  subst hss
  rw [if_pos ⟨rfl, hne⟩] at hus
  subst hus
  constructor
  · exact fun q hq => removeFirstPrompt_not_mem source.prompts sel'.identifier hnd q hq
  · intro e he r hr
    simp only [removeFromPreset, List.mem_map] at he
    obtain ⟨o, _, rfl⟩ := he
    simp only [List.mem_filter] at hr
    exact bne_iff_ne.mp hr.2

/-- C4 witness: moving `X` out of a source with two order scopes (each holding
one reference to `X`) leaves zero references to `X` in both scopes and no
item `X` in the updated source. -/
theorem relocate_move_purges_source_witness :
    ((exSourceTwoScopes.prompts.map (fun q => q.identifier)).Nodup ∧
     ("A" : String) ≠ "B" ∧
     (getOrderedPrompts exSourceTwoScopes)[(0 : Int).toNat]? = some exSelX ∧
     performOperation "A" "B" exSourceTwoScopes exTargetEmpty 0 0 true =
       Except.ok (exSourcePurged, exMovedTarget)) ∧
    (∀ q ∈ exSourcePurged.prompts, q.identifier ≠ exSelX.identifier) ∧
    (∀ e ∈ exSourcePurged.prompt_order, ∀ r ∈ e.order,
      r.identifier ≠ exSelX.identifier) :=
  ⟨⟨by decide, by decide, by decide, by decide⟩,
   relocate_move_purges_source "A" "B" exSourceTwoScopes exTargetEmpty 0 0
     exSourcePurged exMovedTarget exSelX (by decide) (by decide) (by decide) (by decide)⟩

/-- C5: copy mode never changes the source collection: a successful copy
returns the source structurally unchanged. -/
theorem relocate_copy_preserves_source
    (sourceName targetName : String) (source target : Preset)
    (selectedIdx insertPos : Int) (us ut : Preset)
    (h : performOperation sourceName targetName source target selectedIdx insertPos
      false = Except.ok (us, ut)) :
    us = source := by
  obtain ⟨-, -, sel, -, -, hus⟩ := performOperation_ok_elim h
  rw [if_neg (fun hc => by simpa using hc.1)] at hus
  exact hus

/-- C5 witness: the concrete copy of `X` into `exTargetX` returns `exSource`
as the updated source, structurally equal to the original. -/
theorem relocate_copy_preserves_source_witness :
    (performOperation "A" "B" exSource exTargetX 0 0 false =
       Except.ok (exSource, exTargetXCopied)) ∧
    exSource = exSource :=
  ⟨by decide,
   relocate_copy_preserves_source "A" "B" exSource exTargetX 0 0
     exSource exTargetXCopied (by decide)⟩

/-- C6 counterexample: invoked with the same name on both sides in move mode,
the engine does not fail and does not leave the inputs unchanged: it returns
`ok` with the copy inserted into the target. -/
theorem same_name_move_not_rejected_cex :
    performOperation "A" "A" exSource exSource 0 0 true =
      Except.ok (exSource, exSourceSelfMoved) ∧
    exSourceSelfMoved ≠ exSource :=
  ⟨by decide, by decide⟩

/-- C6 amended: same-collection moves are rejected only at the UI layer
(`canMove` is `false` whenever the names coincide, keeping the move button
disabled); the engine itself, invoked with equal names in move mode, performs
the insertion into the target and merely skips the source-removal step, so the
source comes back unchanged while the target gains the copy. -/
theorem same_name_move_engine_behavior
    (name : String) (source target : Preset)
    (selectedIdx insertPos : Int) (us ut : Preset)
    (h : performOperation name name source target selectedIdx insertPos true =
      Except.ok (us, ut)) :
    us = source ∧ canMove name name selectedIdx insertPos = false ∧
      ∃ pd, ut.prompts = target.prompts ++ [pd] := by
  obtain ⟨-, -, sel, -, hut, hus⟩ := performOperation_ok_elim h
  refine ⟨?_, ?_, ?_⟩
  · rw [if_neg (fun hc => hc.2 rfl)] at hus
    exact hus
  · simp [canMove]
  · exact ⟨_, by rw [hut]⟩

/-- C6 witness: the amended behaviour on the concrete same-name move. -/
theorem same_name_move_engine_behavior_witness :
    (performOperation "A" "A" exSource exSource 0 0 true =
       Except.ok (exSource, exSourceSelfMoved)) ∧
    (exSource = exSource ∧ canMove "A" "A" 0 0 = false ∧
      ∃ pd, exSourceSelfMoved.prompts = exSource.prompts ++ [pd]) :=
  ⟨by decide,
   same_name_move_engine_behavior "A" exSource exSource 0 0 exSource exSourceSelfMoved
     (by decide)⟩

/-- C7 counterexample: with a one-reference order sequence, inserting at slot
`length + 1 = 2` does not fail with any error: the splice clamps and the new
reference is placed last. -/
theorem insert_beyond_length_not_rejected_cex :
    (getPromptOrder exTargetX).length = 1 ∧
    performOperation "A" "B" exSource exTargetX 0 2 false =
      Except.ok (exSource, exTargetXAppended) ∧
    getPromptOrder exTargetXAppended =
      [{ identifier := "X", enabled := true }, { identifier := "X_1", enabled := true }] :=
  ⟨by decide, by decide, by decide⟩

/-- C7 amended: slot `0` places the new reference first and slot `length`
places it last, but a slot beyond `length` is clamped by the splice — the
reference is placed last and no error is raised; only a negative insert
position is rejected (with the selection-missing error, before any
mutation). -/
theorem insert_position_boundary_behavior
    (sourceName targetName : String) (source target : Preset)
    (selectedIdx insertPos : Int) (removeFromSource : Bool) :
    (insertPos < 0 →
      performOperation sourceName targetName source target selectedIdx insertPos
        removeFromSource = Except.error MoverError.selectionMissing) ∧
    ∀ us ut, performOperation sourceName targetName source target selectedIdx insertPos
        removeFromSource = Except.ok (us, ut) →
      ∃ pd, ut.prompts = target.prompts ++ [pd] ∧
        (insertPos = 0 →
          getPromptOrder ut =
            { identifier := pd.identifier, enabled := true } :: getPromptOrder target) ∧
        ((getPromptOrder target).length ≤ insertPos.toNat →
          getPromptOrder ut =
            getPromptOrder target ++ [{ identifier := pd.identifier, enabled := true }]) := by
  constructor
  · intro hneg
    unfold performOperation
    rw [if_pos (Or.inr hneg)]
  · intro us ut h
    obtain ⟨-, -, sel, -, hut, -⟩ := performOperation_ok_elim h
    subst hut
    refine ⟨_, rfl, ?_, ?_⟩
    · intro h0
      rw [getPromptOrder_insertIntoOrders]
      subst h0
      simp [spliceInsert]
    · intro hge
      rw [getPromptOrder_insertIntoOrders]
      unfold spliceInsert
      rw [List.take_of_length_le hge, List.drop_of_length_le hge]

/-- C7 witness: a negative insert position is rejected before any mutation. -/
theorem insert_position_boundary_behavior_witness :
    (-1 : Int) < 0 ∧
    performOperation "A" "B" exSource exTargetX 0 (-1) false =
      Except.error MoverError.selectionMissing :=
  ⟨by decide,
   (insert_position_boundary_behavior "A" "B" exSource exTargetX 0 (-1) false).1
     (by decide)⟩

/-- C8 counterexample: `ghost` names no item of the source's items, yet
relocating it does not fail: the selected dangling reference resolves to the
stub `{identifier := "ghost", name := "ghost"}` and is copied into the
target. -/
theorem dangling_selection_not_rejected_cex :
    (∀ q ∈ exSourceGhost.prompts, q.identifier ≠ "ghost") ∧
    (getOrderedPrompts exSourceGhost)[(0 : Int).toNat]? =
      some { identifier := "ghost", enabled := true,
             prompt := { identifier := "ghost", name := "ghost" } } ∧
    performOperation "A" "B" exSourceGhost exTargetEmpty 0 0 false =
      Except.ok (exSourceGhost, exGhostCopied) :=
  ⟨by decide, by decide, by decide⟩

/-- C8 amended: the not-found failure is raised (before any mutation: an
error return carries no updated state) exactly when the selected index
addresses no entry of the source's ordered view; a selected entry whose
identifier names no item of `source.items` is not rejected — its stub
`{identifier, name := identifier}` is copied into the target instead. -/
theorem selection_notFound_behavior
    (sourceName targetName : String) (source target : Preset)
    (selectedIdx insertPos : Int) (removeFromSource : Bool)
    (hi : 0 ≤ selectedIdx) (hp : 0 ≤ insertPos) :
    ((getOrderedPrompts source)[selectedIdx.toNat]? = none →
      performOperation sourceName targetName source target selectedIdx insertPos
        removeFromSource = Except.error MoverError.notFound) ∧
    (∀ sel : OrderedPrompt, (getOrderedPrompts source)[selectedIdx.toNat]? = some sel →
      sel.identifier ∉ source.prompts.map (fun q => q.identifier) →
      sel.prompt = { identifier := sel.identifier, name := sel.identifier } ∧
      ∃ us ut, performOperation sourceName targetName source target selectedIdx insertPos
          removeFromSource = Except.ok (us, ut) ∧
        ut.prompts = target.prompts ++
          [disambiguate (target.prompts.map (fun q => q.identifier))
            sel.identifier sel.prompt]) := by
  have hcond : ¬(selectedIdx < 0 ∨ insertPos < 0) := by omega
  constructor
  · intro hnone
    unfold performOperation
    rw [if_neg hcond, hnone]
  · intro sel hsel hnotmem
    have hstub : sel.prompt = { identifier := sel.identifier, name := sel.identifier } := by
      unfold getOrderedPrompts at hsel
      rw [List.getElem?_map] at hsel
      cases hr : (getPromptOrder source)[selectedIdx.toNat]? with
      | none => rw [hr] at hsel; simp at hsel
      | some r =>
        rw [hr] at hsel
        simp only [Option.map_some', Option.some.injEq] at hsel
        subst hsel
        have hfind : source.prompts.find? (fun p => p.identifier == r.identifier) = none := by
          rw [List.find?_eq_none]
          intro x hx hbeq
          apply hnotmem
          exact List.mem_map.mpr ⟨x, hx, eq_of_beq hbeq⟩
        show (match source.prompts.find? (fun p => p.identifier == r.identifier) with
              | some d => d
              | none => { identifier := r.identifier, name := r.identifier }) =
          { identifier := r.identifier, name := r.identifier }
        rw [hfind]
    refine ⟨hstub, ?_⟩
    unfold performOperation
    rw [if_neg hcond, hsel]
    exact ⟨_, _, rfl, rfl⟩

/-- C8 witness: the amended failure condition at an index past the end of the
ordered view. -/
theorem selection_notFound_behavior_witness :
    (0 : Int) ≤ 5 ∧ (0 : Int) ≤ 0 ∧
    (getOrderedPrompts exSource)[(5 : Int).toNat]? = none ∧
    performOperation "A" "B" exSource exTargetX 5 0 false =
      Except.error MoverError.notFound :=
  ⟨by decide, by decide, by decide,
   (selection_notFound_behavior "A" "B" exSource exTargetX 5 0 false
     (by decide) (by decide)).1 (by decide)⟩

/-- C9: the ordered-view resolver is total and shape-preserving: one entry
per order reference, in the same order, copying identifier and enabled flag;
a reference with a matching item carries that item, one without carries the
stub `{identifier, name := identifier}` instead of failing. -/
theorem getOrderedPrompts_total_shape (preset : Preset) :
    (getOrderedPrompts preset).length = (getPromptOrder preset).length ∧
    ∀ (j : Nat) (r : OrderRef), (getPromptOrder preset)[j]? = some r →
      ∃ e, (getOrderedPrompts preset)[j]? = some e ∧
        e.identifier = r.identifier ∧ e.enabled = r.enabled ∧
        (∀ pd, findPromptDef preset r.identifier = some pd → e.prompt = pd) ∧
        (findPromptDef preset r.identifier = none →
          e.prompt = { identifier := r.identifier, name := r.identifier }) := by
  constructor
  · simp [getOrderedPrompts]
  · intro j r hj
    refine ⟨{ identifier := r.identifier, enabled := r.enabled,
              prompt :=
                match preset.prompts.find? (fun p => p.identifier == r.identifier) with
                | some d => d
                | none => { identifier := r.identifier, name := r.identifier } },
            ?_, rfl, rfl, ?_, ?_⟩
    · unfold getOrderedPrompts
      rw [List.getElem?_map, hj]
      rfl
    · intro pd hpd
      unfold findPromptDef at hpd
      show (match preset.prompts.find? (fun p => p.identifier == r.identifier) with
            | some d => d
            | none => { identifier := r.identifier, name := r.identifier }) = pd
      rw [hpd]
    · intro hnone
      unfold findPromptDef at hnone
      show (match preset.prompts.find? (fun p => p.identifier == r.identifier) with
            | some d => d
            | none => { identifier := r.identifier, name := r.identifier }) =
        { identifier := r.identifier, name := r.identifier }
      rw [hnone]

/-- C9 witness: the resolver's shape on the preset whose only order reference
is dangling. -/
theorem getOrderedPrompts_total_shape_witness :
    (getOrderedPrompts exSourceGhost).length = (getPromptOrder exSourceGhost).length :=
  (getOrderedPrompts_total_shape exSourceGhost).1

/-- C10: when the selected entry's prompt identifier does not occur among the
target's item identifiers, the copy keeps its identifier and display name
exactly (the whole prompt record is appended unchanged), in copy and move
mode alike. -/
theorem relocate_no_collision_preserves_prompt
    (sourceName targetName : String) (source target : Preset)
    (selectedIdx insertPos : Int) (removeFromSource : Bool) (us ut : Preset)
    (sel : OrderedPrompt)
    (hsel : (getOrderedPrompts source)[selectedIdx.toNat]? = some sel)
    (hfree : sel.prompt.identifier ∉ target.prompts.map (fun q => q.identifier))
    (h : performOperation sourceName targetName source target selectedIdx insertPos
      removeFromSource = Except.ok (us, ut)) :
    ut.prompts = target.prompts ++ [sel.prompt] := by
  obtain ⟨-, -, sel', hsel', hut, -⟩ := performOperation_ok_elim h
  rw [hsel'] at hsel
  injection hsel with hss
  subst hss
  rw [hut, disambiguate_of_not_mem hfree]

/-- C10 witness: copying `X` into a target without `X` appends the prompt
record verbatim. -/
theorem relocate_no_collision_preserves_prompt_witness :
    ((getOrderedPrompts exSource)[(0 : Int).toNat]? = some exSelX ∧
     exSelX.prompt.identifier ∉ exTargetFresh.prompts.map (fun q => q.identifier) ∧
     performOperation "A" "B" exSource exTargetFresh 0 0 false =
       Except.ok (exSource, exTargetFreshCopied)) ∧
    exTargetFreshCopied.prompts = exTargetFresh.prompts ++ [exSelX.prompt] :=
  ⟨⟨by decide, by decide, by decide⟩,
   relocate_no_collision_preserves_prompt "A" "B" exSource exTargetFresh 0 0 false
     exSource exTargetFreshCopied exSelX (by decide) (by decide) (by decide)⟩
